import Mathlib

set_option autoImplicit false

namespace Truckbot

/-!
Shallow embedding of the `truckbot` repository (the canonical `server.js`
variant together with `recommend.js` / `data.js`).  Strings are modeled as
Lean `String`s; the handful of regular expressions used by the source are
modeled by explicit scanners over `List Char`.  JavaScript `\w` (word
characters) and `\s` (whitespace) are modeled on the ASCII range, which
covers the entire vocabulary appearing in the source.
-/

/-! ## Basic character and string utilities -/

/-- JavaScript `\s` (whitespace class), restricted to ASCII. -/
def jsWhitespace (c : Char) : Bool :=
  c = ' ' || c = '\t' || c = '\n' || c = '\r' || c = '\x0b' || c = '\x0c'

/-- JavaScript `\w` (word-character class `[A-Za-z0-9_]`). -/
def jsWordChar (c : Char) : Bool :=
  c.isAlphanum || c = '_'

/-- Lower-casing of a string (`String.prototype.toLowerCase`, ASCII range). -/
def lowerStr (s : String) : String :=
  String.mk (s.toList.map Char.toLower)

/-- Does `s` start with the pattern `pat` (exact characters)? -/
def listStartsWith (pat s : List Char) : Bool :=
  match pat, s with
  | [], _ => true
  | _ :: _, [] => false
  | p :: ps, c :: cs => p = c && listStartsWith ps cs

/-- Does the character list contain `pat` as a contiguous sublist? -/
def listContains (pat : List Char) : List Char → Bool
  | [] => listStartsWith pat []
  | c :: cs => listStartsWith pat (c :: cs) || listContains pat cs

/-- JavaScript `s.includes(pat)`. -/
def containsSub (s pat : String) : Bool :=
  listContains pat.toList s.toList

/-- JavaScript `Array.prototype.join(sep)` for a list of strings. -/
def joinSep (sep : String) : List String → String
  | [] => ""
  | [x] => x
  | x :: xs => x ++ sep ++ joinSep sep xs

/-- JavaScript `String.prototype.trim` (whitespace stripped on both ends). -/
def trimStr (s : String) : String :=
  String.mk
    (((s.toList.dropWhile jsWhitespace).reverse.dropWhile jsWhitespace).reverse)

/-- JavaScript `s.slice(0, n)` (first `n` characters). -/
def takeStr (n : Nat) (s : String) : String :=
  String.mk (s.toList.take n)

/-- Split on a newline character, keeping empty segments (JS
    `split("\n")`). -/
def splitLinesAux (cur : List Char) : List Char → List String
  | [] => [String.mk cur.reverse]
  | c :: cs =>
    if c = '\n' then String.mk cur.reverse :: splitLinesAux [] cs
    else splitLinesAux (c :: cur) cs

def splitLines (s : String) : List String :=
  splitLinesAux [] s.toList

/-! ## Embedding of `recommend.js` (`extractIntent` and its vocabularies) -/

def VEHICLES : List String :=
  ["f150", "super-duty", "maverick",
   "ram-1500", "ram-2500", "ram-3500",
   "silverado-1500", "sierra-1500",
   "tacoma", "tundra", "gladiator",
   "colorado", "ranger"]

def TYPES : List String :=
  ["tonneau cover", "wheels", "tires", "lift kit", "shocks/struts",
   "cold air intake", "exhaust", "tuner/programmer", "brakes",
   "lighting", "floor mats", "running boards/steps", "bed accessories"]

def KNOWN_TONNEAU_BRANDS : List String :=
  ["BAK", "UnderCover", "Retrax", "TruXedo", "Extang",
   "GatorTrax", "TonnoPro", "Bestop", "Leer"]

def KNOWN_BRANDS : List String :=
  KNOWN_TONNEAU_BRANDS ++
  ["Tyger", "Rough Country", "Bilstein", "FOX", "ICON",
   "Method", "Fuel", "Go Rhino", "AMP Research",
   "WeatherTech", "Husky", "Airaid", "K&N",
   "MBRP", "Borla", "MagnaFlow", "PowerStop"]

/-- Normalization helper `lc` from `recommend.js` (trim then lower-case). -/
def lcStr (s : String) : String := lowerStr (trimStr s)

/-- The record returned by `extractIntent` in `recommend.js`: a coarse
    vehicle slug, a product type, and a brand — note that it has NO
    `year`/`make`/`model`/`bed`/`trim`/`engine` fields. -/
structure RecommendIntent where
  vehicle : Option String
  type : Option String
  brand : Option String
deriving Repr, DecidableEq

/-- JavaScript `v.replace("-", " ")` (string pattern: first occurrence only). -/
def replaceFirstDash : List Char → List Char
  | [] => []
  | c :: cs => if c = '-' then ' ' :: cs else c :: replaceFirstDash cs

/-- `extractIntent` from `recommend.js`: vehicle slug via substring search
    (with/without hyphen), type via substring search over `TYPES` with a
    `bed cover`/`tonneau` fallback, brand via case-insensitive substring scan
    over `KNOWN_BRANDS` (first hit wins). -/
def extractIntent (query : String) : RecommendIntent :=
  let q := lcStr query
  let vehicle :=
    match VEHICLES.find? fun v => containsSub q (String.mk (replaceFirstDash v.toList)) with
    | some v => some v
    | none => VEHICLES.find? fun v => containsSub q v
  let type :=
    match TYPES.find? fun t => containsSub q t with
    | some t => some t
    | none =>
      if containsSub q "bed cover" || containsSub q "tonneau" then some "tonneau cover" else none
  let brand := KNOWN_BRANDS.find? fun b => containsSub q (lcStr b)
  { vehicle := vehicle, type := type, brand := brand }

/-! ## Vehicle profile memory (`mergeVehicleMemory`, `missingFitment`) -/

/-- The per-session vehicle profile `{year, make, model, bed, trim, engine}`;
    every field is optional (`null`/absent modeled as `none`). -/
structure Vehicle where
  year : Option String
  make : Option String
  model : Option String
  bed : Option String
  trim : Option String
  engine : Option String
deriving Repr, DecidableEq

/-- The fresh profile `{}` of a newly created session. -/
def emptyVehicle : Vehicle := ⟨none, none, none, none, none, none⟩

/-- JavaScript truthiness of an optional string field (`undefined`, `null`
    and `""` are all falsy). -/
def truthy : Option String → Bool
  | none => false
  | some s => s ≠ ""

/-- Field-level semantics of `fromIntent.f || v.f || null` used by
    `mergeVehicleMemory`: the INCOMING truthy value wins, otherwise the
    existing truthy value, otherwise `null`. -/
def jsOrField (a b : Option String) : Option String :=
  if truthy a then a else if truthy b then b else none

/-- `mergeVehicleMemory` from `server.js` (the session-mutation is modeled by
    returning the merged profile, which the caller stores back into the
    session). -/
def mergeVehicleMemory (v fromIntent : Vehicle) : Vehicle where
  year := jsOrField fromIntent.year v.year
  make := jsOrField fromIntent.make v.make
  model := jsOrField fromIntent.model v.model
  bed := jsOrField fromIntent.bed v.bed
  trim := jsOrField fromIntent.trim v.trim
  engine := jsOrField fromIntent.engine v.engine

/-- `missingFitment` from `server.js`: the names of the missing core fields,
    in the order `year`, `make`, `model`. -/
def missingFitment (vehicle : Vehicle) : List String :=
  (if truthy vehicle.year then [] else ["year"]) ++
  (if truthy vehicle.make then [] else ["make"]) ++
  (if truthy vehicle.model then [] else ["model"])

/-- The coupling of `extractIntent` with `mergeVehicleMemory` at the call site
    `mergeVehicleMemory(sess, extractIntent(message))`: the object returned by
    `extractIntent` has fields `vehicle`/`type`/`brand` only, so the accesses
    `fromIntent.year` … `fromIntent.engine` performed by the merge all read
    `undefined`.  The partial profile actually seen by the merge is therefore
    the empty profile, whatever the message said. -/
def asVehiclePartial (_ : RecommendIntent) : Vehicle := emptyVehicle

/-! ## Session store (`SESSIONS`, `getSession`, `pushHistory`) -/

inductive Role where
  | user
  | assistant
deriving Repr, DecidableEq

structure Msg where
  role : Role
  content : String
deriving Repr, DecidableEq

/-- History capacity of the canonical `server.js` variant. -/
def MAX_TURNS : Nat := 16

/-- `pushHistory` from `server.js`: append the new turn, then
    `splice(0, length - MAX_TURNS)` once the capacity is exceeded. -/
def pushHistory (history : List Msg) (role : Role) (content : String) : List Msg :=
  let h := history ++ [⟨role, content⟩]
  if MAX_TURNS < h.length then h.drop (h.length - MAX_TURNS) else h

structure Flags where
  askedFitmentOnce : Bool
  offeredUpsellAfterHowTo : Bool
deriving Repr, DecidableEq

structure Session where
  history : List Msg
  vehicle : Vehicle
  flags : Flags
deriving Repr, DecidableEq

/-- The session created on first use by `getSession`. -/
def freshSession : Session :=
  { history := [], vehicle := emptyVehicle,
    flags := { askedFitmentOnce := false, offeredUpsellAfterHowTo := false } }

/-- The session key computed by the chat handler:
    `(session || "visitor").toString().slice(0, 60)` (JS `slice` counts
    UTF-16 units; modeled as the first 60 characters, which agrees for
    identifiers drawn from the basic multilingual plane). -/
def sessionKey (session : Option String) : String :=
  (match session with
   | some s => if s = "" then "visitor" else s
   | none => "visitor") |> takeStr 60

/-- `getSession`: the `SESSIONS` map is modeled as an association list; a
    missing key is lazily created with empty defaults. -/
def getSession (store : List (String × Session)) (sessionId : String) : Session :=
  match store.find? (fun kv => kv.1 == sessionId) with
  | some kv => kv.2
  | none => freshSession

/-! ## GEO resolution (`COUNTRY_TO_TLD_LIMITED`, `resolveMarketplace`) -/

def COUNTRY_TO_TLD_LIMITED : List (String × String) :=
  [("US", "com"), ("GB", "co.uk"), ("UK", "co.uk"), ("CA", "ca")]

/-- Object-key lookup `COUNTRY_TO_TLD_LIMITED[cc]`, modeled as a finite map
    (the object is used as a dictionary; the JS prototype chain only carries
    lower-case keys, while every country code reaching the lookup has been
    upper-cased by `normalizeCountry`). -/
def lookupTld (c : String) : Option String :=
  (COUNTRY_TO_TLD_LIMITED.find? (fun kv => kv.1 == c)).map (fun kv => kv.2)

/-- `process.env.AMAZON_MARKETPLACE || "com"`; the environment variable is
    passed in explicitly (absent or empty falls back to `"com"`). -/
def defaultMarketplace (envAmazonMarketplace : Option String) : String :=
  match envAmazonMarketplace with
  | some s => if s = "" then "com" else s
  | none => "com"

/-- `resolveMarketplace` from `server.js`:
    `(cc && COUNTRY_TO_TLD_LIMITED[cc]) ? COUNTRY_TO_TLD_LIMITED[cc]
       : (process.env.AMAZON_MARKETPLACE || "com")`. -/
def resolveMarketplace (cc : Option String) (envAmazonMarketplace : Option String) : String :=
  match cc with
  | some c =>
    if c ≠ "" then
      match lookupTld c with
      | some tld => tld
      | none => defaultMarketplace envAmazonMarketplace
    else defaultMarketplace envAmazonMarketplace
  | none => defaultMarketplace envAmazonMarketplace

/-! ## Amazon search URLs -/

/-- Hex digit for percent-encoding (upper case, as `URLSearchParams`). -/
def hexDigit (n : Nat) : Char :=
  if n < 10 then Char.ofNat (48 + n) else Char.ofNat (55 + n)

/-- One byte as `%XY`. -/
def percentByte (b : Nat) : List Char :=
  ['%', hexDigit (b / 16 % 16), hexDigit (b % 16)]

/-- `application/x-www-form-urlencoded` encoding of one character, as
    performed by `URLSearchParams.toString()`: alphanumerics and `*-._`
    pass through, space becomes `+`, everything else is percent-encoded
    (UTF-8 bytes). -/
def urlFormEncodeChar (c : Char) : List Char :=
  if c = ' ' then ['+']
  else if c.isAlphanum || c = '*' || c = '-' || c = '.' || c = '_' then [c]
  else
    let n := c.toNat
    if n < 0x80 then percentByte n
    else if n < 0x800 then
      percentByte (0xC0 + n / 64) ++ percentByte (0x80 + n % 64)
    else if n < 0x10000 then
      percentByte (0xE0 + n / 4096) ++ percentByte (0x80 + n / 64 % 64) ++
        percentByte (0x80 + n % 64)
    else
      percentByte (0xF0 + n / 262144) ++ percentByte (0x80 + n / 4096 % 64) ++
        percentByte (0x80 + n / 64 % 64) ++ percentByte (0x80 + n % 64)

def urlFormEncode (s : String) : String :=
  String.mk (s.toList.flatMap urlFormEncodeChar)

/-- `amazonDomainFromCC` from `server.js`. -/
def amazonDomainFromCC (cc : String) : String :=
  "https://www.amazon." ++ lowerStr (if cc = "" then "com" else cc)

/-- `buildAmazonSearchURL(query, {tag, marketplace})`; the two environment
    variables it reads are passed explicitly. -/
def buildAmazonSearchURL (query : String) (tag marketplace : Option String)
    (envMarketplace envAffiliateTag : Option String) : String :=
  let base := amazonDomainFromCC
    (match marketplace with
     | some m => if m = "" then defaultMarketplace envMarketplace else m
     | none => defaultMarketplace envMarketplace)
  let assoc : Option String :=
    match tag with
    | some t => if t = "" then envAffiliateTag else some t
    | none => envAffiliateTag
  let params := "k=" ++ urlFormEncode query ++
    (match assoc with
     | some a => if a = "" then "" else "&tag=" ++ urlFormEncode a
     | none => "")
  base ++ "/s?" ++ params

/-! ## Word-boundary literal matching

The source tests many vocabularies with regexes of the form `/\bWORD\b/i`.
`litTestAux` scans the text for a case-insensitive occurrence of the literal
with a JS word boundary on both sides. -/

/-- Case-insensitive character comparison (ASCII, as the `i` flag). -/
def charEqCI (a b : Char) : Bool := a.toLower == b.toLower

/-- Case-insensitive `listStartsWith`. -/
def startsWithCI (pat s : List Char) : Bool :=
  match pat, s with
  | [], _ => true
  | _ :: _, [] => false
  | p :: ps, c :: cs => charEqCI p c && startsWithCI ps cs

/-- JS `\b` between two (optional) text characters: exactly one side is a
    word character (an absent side counts as non-word). -/
def isBoundary (a b : Option Char) : Bool :=
  (match a with | none => false | some c => jsWordChar c) !=
  (match b with | none => false | some c => jsWordChar c)

/-- Does `/\bPAT\b/i` (for a literal `PAT`) match starting at the head of
    `s`, where `prev` is the character just before `s`? -/
def litHereCI (pat : List Char) (prev : Option Char) (s : List Char) : Bool :=
  isBoundary prev s.head? && startsWithCI pat s &&
    isBoundary (s.take pat.length).getLast? (s.drop pat.length).head?

def litTestAux (pat : List Char) (prev : Option Char) : List Char → Bool
  | [] => false
  | c :: cs => litHereCI pat prev (c :: cs) || litTestAux pat (some c) cs

/-- `/\bPAT\b/i.test(s)` for a literal pattern `PAT`. -/
def testLitCI (pat : String) (s : String) : Bool :=
  litTestAux pat.toList none s.toList

/-! ## Product / brand / category detection (`server.js`) -/

def BRANDS : List String :=
  ["SCT", "DiabloSport", "Bully Dog", "Edge", "Hypertech", "Superchips",
   "BAKFlip", "Retrax", "RetraxPRO", "UnderCover", "GatorTrax", "TruXedo",
   "Extang", "Roll-N-Lock", "Pace Edwards", "Leer",
   "Bilstein", "FOX", "Eibach", "ICON", "BDS", "Rough Country",
   "ReadyLIFT", "Rancho",
   "Power Stop", "Brembo", "EBC", "Hawk",
   "AMP Research", "Westin", "N-FAB", "Tyger Auto", "Ionic", "Go Rhino"]

def CATEGORY_TERMS : List String :=
  ["cold air intake", "air intake", "intake", "intake kit", "intake filter",
   "air filter",
   "tonneau cover", "bed cover", "retractable tonneau", "tri-fold tonneau",
   "hard folding cover", "soft roll-up cover",
   "lift kit", "leveling kit", "shocks", "struts", "coilovers", "springs",
   "brake pads", "rotors", "brakes",
   "running boards", "nerf bars", "side steps", "power steps", "rock sliders",
   "floor mats", "bed liner", "rack", "exhaust", "muffler", "cat-back",
   "header",
   "tuner", "programmer", "scanner",
   "headlights", "taillights", "light bar", "fog lights",
   "wheels", "tires", "all terrain", "mud terrain"]

/-- `detectCategories`: the source scans the text with one big alternation
    regex, `Set`-collecting every category term that occurs word-bounded and
    case-insensitively.  It is modeled as the list of vocabulary terms with a
    match; a term whose only occurrences overlap an earlier match of another
    term would be kept here but missed by the source's non-overlapping scan —
    the two models agree on emptiness, which is all the fitment gate
    consumes. -/
def detectCategories (text : String) : List String :=
  CATEGORY_TERMS.filter fun t => testLitCI t text

/-- `detectBrands`: one word-bounded case-insensitive regex per brand, found
    brands collected in `BRANDS` order. -/
def detectBrands (text : String) : List String :=
  BRANDS.filter fun b => testLitCI b text

def NON_PRODUCT_PHRASES : List String :=
  ["determine compatibility", "choose type", "research brands",
   "read reviews",
   "compare prices", "check features", "warranty & support",
   "warranty and support",
   "safety notes", "installation", "backup", "legal compliance",
   "compatibility",
   "research", "compare", "check", "warranty", "support", "safety", "legal",
   "best"]

def PRODUCT_TOKENS : List String :=
  ["series", "kit", "intake", "filter", "pads", "rotors", "brake", "cover",
   "shocks", "struts", "coilover", "springs",
   "tuner", "programmer", "exhaust", "muffler", "header", "cat-back", "nerf",
   "board", "boards", "steps", "step", "slider", "sliders",
   "mat", "mats", "liner", "rack", "headlight", "headlights", "taillight",
   "taillights", "tire", "tires", "wheel", "wheels",
   "bar", "light", "lights", "led", "winch", "hitch", "battery"]

def MAKES : List String :=
  ["ford", "chevrolet", "chevy", "gmc", "ram", "dodge", "toyota", "nissan",
   "jeep", "honda", "subaru"]

/-- Split on runs of whitespace (JS `split(/\s+/)`), dropping empty pieces;
    JS would keep one leading empty piece for text starting with whitespace,
    which no membership test can observe. -/
def splitWsAux (cur : List Char) (acc : List String) : List Char → List String
  | [] => (if cur.isEmpty then acc else String.mk cur.reverse :: acc).reverse
  | c :: cs =>
    if jsWhitespace c then
      splitWsAux [] (if cur.isEmpty then acc else String.mk cur.reverse :: acc) cs
    else
      splitWsAux (c :: cur) acc cs

def splitWs (s : String) : List String :=
  splitWsAux [] [] s.toList

/-- Does `/\b(19|20)\d{2}\b/` match (a word-bounded four-digit 19xx/20xx
    number)? -/
def yearHere (prev : Option Char) (s : List Char) : Bool :=
  match s with
  | a :: b :: c :: d :: rest =>
    isBoundary prev (some a) &&
      ((a = '1' && b = '9') || (a = '2' && b = '0')) &&
      c.isDigit && d.isDigit && isBoundary (some d) rest.head?
  | _ => false

def hasYearTokenAux (prev : Option Char) : List Char → Bool
  | [] => false
  | c :: cs => yearHere prev (c :: cs) || hasYearTokenAux (some c) cs

def hasYearToken (s : String) : Bool :=
  hasYearTokenAux none s.toList

/-- The model alternation of `looksLikeVehicleOnly`:
    `f[\s-]?150` is expanded over the single space / hyphen separators, the
    rest are plain substrings (the source regex has no word boundaries). -/
def MODEL_SUBSTRINGS : List String :=
  ["f150", "f 150", "f-150", "silverado", "sierra", "tacoma", "tundra",
   "ranger", "ram1500", "ram 1500", "gladiator", "maverick", "colorado",
   "frontier"]

/-- `looksLikeVehicleOnly` from `server.js`. -/
def looksLikeVehicleOnly (phrase : String) : Bool :=
  let lcp := lowerStr phrase
  (hasYearToken lcp && MAKES.any fun m => containsSub lcp m) ||
  (MODEL_SUBSTRINGS.any (fun m => containsSub lcp m) &&
    MAKES.any fun m => containsSub lcp m)

/-- The `hasToken` part of `isProductishPhrase`: some product token occurs as
    a whole whitespace-separated word of the lower-cased phrase, or one of
    five multi-word category terms occurs as a substring. -/
def hasProductToken (lcPhrase : String) : Bool :=
  PRODUCT_TOKENS.any (fun tok => (splitWs lcPhrase).contains tok) ||
  ["cold air intake", "light bar", "bed liner", "floor mats", "cat-back"].any
    (fun t => containsSub lcPhrase t)

/-- Maximal runs of word characters of a string. -/
def wordRunsAux (cur : List Char) (acc : List (List Char)) :
    List Char → List (List Char)
  | [] => (if cur.isEmpty then acc else cur.reverse :: acc).reverse
  | c :: cs =>
    if jsWordChar c then wordRunsAux (c :: cur) acc cs
    else wordRunsAux [] (if cur.isEmpty then acc else cur.reverse :: acc) cs

def wordRuns (s : String) : List (List Char) :=
  wordRunsAux [] [] s.toList

/-- Does a maximal word run match the alternation
    `[a-z]*\d+[a-z]+|[a-z]+[0-9]+` in full (the `\b`...`\b` anchors of the
    source pattern force the match to span a whole run, `_` can occur in a
    run but in no match)? -/
def mixRunOk (run : List Char) : Bool :=
  let r := run.map Char.toLower
  let a := r.takeWhile Char.isAlpha
  let r1 := r.drop a.length
  let d := r1.takeWhile Char.isDigit
  let r2 := r1.drop d.length
  let b := r2.takeWhile Char.isAlpha
  let r3 := r2.drop b.length
  decide (0 < d.length) && r3.isEmpty &&
    (decide (0 < b.length) || (decide (0 < a.length) && b.isEmpty))

/-- The `hasAlphaNumMix` part of `isProductishPhrase`:
    `/\b(?:[a-z]*\d+[a-z]+|[a-z]+[0-9]+)\b/i.test(phrase) || /&/.test(phrase)`. -/
def hasAlphaNumMix (phrase : String) : Bool :=
  (wordRuns phrase).any mixRunOk || containsSub phrase "&"

/-- `isProductishPhrase` from `server.js`. -/
def isProductishPhrase (phrase : String) : Bool :=
  let lcp := lowerStr phrase
  if NON_PRODUCT_PHRASES.any (fun p => containsSub lcp p) then false
  else if looksLikeVehicleOnly lcp then false
  else hasProductToken lcp || hasAlphaNumMix phrase

/-! ## Capitalized-phrase harvesting (`PROD_PHRASE_RE`, `harvestProductPhrases`) -/

/-- Characters of the phrase-token body class `[A-Za-z0-9&\-]`. -/
def phraseBodyChar (c : Char) : Bool :=
  c.isAlphanum || c = '&' || c = '-'

/-- A whitespace-delimited word that can OPEN a phrase:
    `[A-Z][A-Za-z0-9&\-]+` (at least two characters). -/
def phraseStartWord (w : String) : Bool :=
  match w.toList with
  | c :: rest => c.isUpper && decide (0 < rest.length) && rest.all phraseBodyChar
  | [] => false

/-- A word that can CONTINUE a phrase: `[A-Z0-9][A-Za-z0-9&\-]+`. -/
def phraseContWord (w : String) : Bool :=
  match w.toList with
  | c :: rest =>
    (c.isUpper || c.isDigit) && decide (0 < rest.length) && rest.all phraseBodyChar
  | [] => false

/-- The global scan of `PROD_PHRASE_RE`
    `\b([A-Z][A-Za-z0-9&\-]+(?:\s+[A-Z0-9][A-Za-z0-9&\-]+){0,6})\b`,
    modeled at the level of whitespace-separated words: a greedy,
    non-overlapping left-to-right collection of runs of one opening word
    followed by up to six continuation words. -/
def phraseScanAux : Nat → List String → List String
  | 0, _ => []
  | _, [] => []
  | fuel + 1, w :: ws =>
    if phraseStartWord w then
      let taken := (ws.takeWhile phraseContWord).take 6
      joinSep " " (w :: taken) :: phraseScanAux fuel (ws.drop taken.length)
    else
      phraseScanAux fuel ws

def phraseScan (ws : List String) : List String :=
  phraseScanAux ws.length ws

/-- The trailing-punctuation strip `replace(/[.,;:)\]]+$/, "")` applied to
    each harvested candidate. -/
def stripTrailingPunct (s : String) : String :=
  String.mk
    ((s.toList.reverse.dropWhile fun c =>
        c = '.' || c = ',' || c = ';' || c = ':' || c = ')' || c = ']').reverse)

/-- JS `Set` collection: deduplicate keeping first occurrences. -/
def dedupKeepFirstAux (seen : List String) : List String → List String
  | [] => []
  | x :: xs =>
    if seen.contains x then dedupKeepFirstAux seen xs
    else x :: dedupKeepFirstAux (x :: seen) xs

def dedupKeepFirst (l : List String) : List String :=
  dedupKeepFirstAux [] l

/-- `harvestProductPhrases` from `server.js`: scan for capitalized 2–7-word
    runs, clean each candidate, drop candidates without a letter, keep a
    candidate only if `isProductishPhrase` accepts it OR it is verbatim a
    whitelisted brand, and collect the survivors into a `Set`. -/
def harvestProductPhrases (text : String) : List String :=
  if text = "" then []
  else
    let raws := (phraseScan (splitWs text)).map stripTrailingPunct
    let kept := raws.filter fun raw =>
      raw.toList.any Char.isAlpha &&
        (isProductishPhrase raw || BRANDS.contains raw)
    dedupKeepFirst kept

/-- The word alternation of the final fallback regex of `isShoppingIntent`
    (`pads?`, `rotors?`, `shocks?`, `struts?` expanded). -/
def SHOP_FALLBACK_WORDS : List String :=
  ["cover", "intake", "kit", "pad", "pads", "rotor", "rotors", "brake",
   "shock", "shocks", "strut", "struts", "tire", "wheel", "nerf", "running",
   "step", "winch", "tuner", "mat", "liner", "rack", "headlight",
   "taillight", "exhaust", "filter"]

/-- `isShoppingIntent` from `server.js`. -/
def isShoppingIntent (text : String) : Bool :=
  if text = "" then false
  else if decide (0 < (detectCategories text).length) then true
  else if decide (0 < (harvestProductPhrases text).length) then true
  else SHOP_FALLBACK_WORDS.any fun w => testLitCI w text

/-- `saidYes`:
    `/\b(yes|yeah|yup|sure|ok|okay|please do|go ahead|why not)\b/i`. -/
def YES_WORDS : List String :=
  ["yes", "yeah", "yup", "sure", "ok", "okay", "please do", "go ahead",
   "why not"]

def saidYes (s : String) : Bool :=
  YES_WORDS.any fun w => testLitCI w s

/-! ## Greetings and how-to detection -/

def greetTail (rest : List Char) : Bool :=
  rest.all fun c => jsWhitespace c || c = '!' || c = '.' || c = '?'

def GREET_SIMPLE : List String :=
  ["hi", "hello", "hey", "yo", "sup", "hola", "howdy"]

/-- `GREET_RE`
    `^\s*(hi|hello|hey|yo|sup|hola|howdy|good\s*(morning|afternoon|evening))\b[\s!\.\?]*$`,
    case-insensitive. -/
def greetMatch (cs : List Char) : Bool :=
  let afterWs := cs.dropWhile jsWhitespace
  (GREET_SIMPLE.any fun alt =>
    startsWithCI alt.toList afterWs &&
      (let rest := afterWs.drop alt.length
       isBoundary (afterWs.take alt.length).getLast? rest.head? &&
         greetTail rest)) ||
  (startsWithCI "good".toList afterWs &&
    (let r1 := (afterWs.drop 4).dropWhile jsWhitespace
     ["morning", "afternoon", "evening"].any fun w =>
       startsWithCI w.toList r1 &&
         (let rest := r1.drop w.length
          isBoundary (r1.take w.length).getLast? rest.head? && greetTail rest)))

/-- `isGreetingOrSmallTalk` from `server.js`. -/
def isGreetingOrSmallTalk (text : String) : Bool :=
  greetMatch text.toList || decide ((trimStr text).length < 2)

def HOWTO_KEYWORDS : List String :=
  ["how to", "how do i", "procedure", "steps", "install", "replace",
   "change", "fix", "tutorial", "guide"]

/-- `looksLikeHowTo` from `server.js` (plain substring containment of the
    lower-cased text). -/
def looksLikeHowTo (s : String) : Bool :=
  HOWTO_KEYWORDS.any fun k => containsSub (lowerStr s) k

/-! ## Markdown stripping (`stripMarkdownBasic`)

Each `replace` of the source is modeled by an explicit scanner.  The
replace-all scanners below carry a fuel argument initialized with the length
of the text; every step consumes at least one character and one unit of
fuel, so the fuel never runs out on the initial call. -/

/-- Match of `(\*{1,3})([^*]+)\1` at the head of `s`, trying the greedy
    star-counts 3, 2, 1 in order; returns the replacement text `$2` and the
    remainder after the match. -/
def tryBoldCnt (cnt : Nat) (s : List Char) : Option (List Char × List Char) :=
  if listStartsWith (List.replicate cnt '*') s then
    let rest0 := s.drop cnt
    let body := rest0.takeWhile fun c => c ≠ '*'
    if body.isEmpty then none
    else
      let rest1 := rest0.drop body.length
      if listStartsWith (List.replicate cnt '*') rest1 then
        some (body, rest1.drop cnt)
      else none
  else none

def boldHere (s : List Char) : Option (List Char × List Char) :=
  match tryBoldCnt 3 s with
  | some r => some r
  | none =>
    match tryBoldCnt 2 s with
    | some r => some r
    | none => tryBoldCnt 1 s

def stripBoldAux : Nat → List Char → List Char
  | 0, s => s
  | _, [] => []
  | fuel + 1, c :: cs =>
    match boldHere (c :: cs) with
    | some (body, rest) => body ++ stripBoldAux fuel rest
    | none => c :: stripBoldAux fuel cs

/-- Match of `` `([^`]+)` `` at the head of `s`. -/
def codeHere (s : List Char) : Option (List Char × List Char) :=
  match s with
  | '`' :: rest =>
    let body := rest.takeWhile fun c => c ≠ '`'
    if body.isEmpty then none
    else
      match rest.drop body.length with
      | '`' :: r2 => some (body, r2)
      | _ => none
  | _ => none

def stripCodeAux : Nat → List Char → List Char
  | 0, s => s
  | _, [] => []
  | fuel + 1, c :: cs =>
    match codeHere (c :: cs) with
    | some (body, rest) => body ++ stripCodeAux fuel rest
    | none => c :: stripCodeAux fuel cs

/-- Per-line model of `^#+\s*(.+)$` with the `m` flag (the corner case of a
    greedy `\s*` swallowing the newline of an otherwise empty heading line is
    not reproduced; no vocabulary in this development exercises it). -/
def stripHeadingLine (line : String) : String :=
  match line.toList with
  | '#' :: rest =>
    let rest1 := rest.dropWhile fun c => c = '#'
    let rest2 := rest1.dropWhile jsWhitespace
    if rest2.isEmpty then line else String.mk rest2
  | _ => line

def stripHeadings (s : String) : String :=
  joinSep "\n" ((splitLines s).map stripHeadingLine)

/-- Match of the image pattern `!\[[^\]]*\]\([^)]+\)` at the head of `s`;
    returns the remainder (the match is deleted). -/
def imageHere (s : List Char) : Option (List Char) :=
  match s with
  | '!' :: '[' :: rest =>
    let alt := rest.takeWhile fun c => c ≠ ']'
    match rest.drop alt.length with
    | ']' :: '(' :: r2 =>
      let url := r2.takeWhile fun c => c ≠ ')'
      if url.isEmpty then none
      else
        match r2.drop url.length with
        | ')' :: r3 => some r3
        | _ => none
    | _ => none
  | _ => none

def stripImagesAux : Nat → List Char → List Char
  | 0, s => s
  | _, [] => []
  | fuel + 1, c :: cs =>
    match imageHere (c :: cs) with
    | some rest => stripImagesAux fuel rest
    | none => c :: stripImagesAux fuel cs

/-- `stripMarkdownBasic` from `server.js`: bold/italic, code spans, headings
    and images are stripped in that order; the final
    `replace(/\[[^\]]+\]\([^)]+\)/g, "$&")` rewrites markdown links to
    themselves and is the identity. -/
def stripMarkdownBasic (s : String) : String :=
  let s1 := String.mk (stripBoldAux s.toList.length s.toList)
  let s2 := String.mk (stripCodeAux s1.toList.length s1.toList)
  let s3 := stripHeadings s2
  String.mk (stripImagesAux s3.toList.length s3.toList)

/-! ## Token utilities for fuzzy matching (`_STOP`, `_norm`, `_toks`) -/

def STOP_WORDS : List String :=
  ["the", "a", "an", "for", "to", "of", "on", "with", "and", "or", "cover",
   "covers", "tonneau", "truck", "bed", "ford", "ram", "chevy", "gmc",
   "toyota", "best", "good", "great", "kit", "pads", "brakes"]

/-- `_norm`: lower-case, map `[^a-z0-9\s]` to spaces, collapse whitespace,
    trim. -/
def normStr (s : String) : String :=
  joinSep " "
    (splitWs (String.mk (s.toList.map fun c =>
      let l := c.toLower
      if (l.isAlpha && l.isLower) || l.isDigit || jsWhitespace l then l
      else ' ')))

/-- `_toks`: whitespace-split of the normal form, stop words removed. -/
def toksOf (s : String) : List String :=
  (splitWs (normStr s)).filter fun t => t ≠ "" && !STOP_WORDS.contains t

/-- `buildOrderedTokenRegex`: the 2–3 leading significant tokens of the
    name, or `null` when no token survives; the regex
    `\btok1\s+tok2(\s+tok3)?\b` itself is represented by this token list and
    interpreted by `tokSeqHere` below. -/
def buildOrderedTokenRegex (name : String) : Option (List String) :=
  let ts := toksOf name
  if ts.isEmpty then none else some (ts.take 3)

/-! ## Regex interpreters for the two matching tiers -/

/-- Case-insensitive literal consumption: the consumed text characters and
    the remainder. -/
def consumeCI (pat s : List Char) : Option (List Char × List Char) :=
  match pat, s with
  | [], rest => some ([], rest)
  | _ :: _, [] => none
  | p :: ps, c :: cs =>
    if charEqCI p c then
      match consumeCI ps cs with
      | some (m, r) => some (c :: m, r)
      | none => none
    else none

/-- `\s+` consumption (greedy; the following token starts with a non-space,
    so greediness is exact). -/
def consumeWsPlus (s : List Char) : Option (List Char × List Char) :=
  let w := s.takeWhile jsWhitespace
  if w.isEmpty then none else some (w, s.drop w.length)

def tokSeqAfterFirst : List String → List Char → Option (List Char × List Char)
  | [], s => some ([], s)
  | t :: ts, s =>
    match consumeWsPlus s with
    | none => none
    | some (w, r1) =>
      match consumeCI t.toList r1 with
      | none => none
      | some (m, r2) =>
        match tokSeqAfterFirst ts r2 with
        | some (m2, r3) => some (w ++ m ++ m2, r3)
        | none => none

/-- Match of `\btok1(\s+tok2)…\b` (case-insensitive) at the head of `s`,
    `prev` being the character before `s`; returns matched text and
    remainder. -/
def tokSeqHere (toks : List String) (prev : Option Char) (s : List Char) :
    Option (List Char × List Char) :=
  match toks with
  | [] => none
  | t :: ts =>
    if isBoundary prev s.head? then
      match consumeCI t.toList s with
      | none => none
      | some (m1, r1) =>
        match tokSeqAfterFirst ts r1 with
        | none => none
        | some (m2, r2) =>
          let matched := m1 ++ m2
          if isBoundary matched.getLast? r2.head? then some (matched, r2)
          else none
    else none

/-- `tokenRe.test(s)`. -/
def tokSeqSearch (toks : List String) (prev : Option Char) : List Char → Bool
  | [] => (tokSeqHere toks prev []).isSome
  | c :: cs =>
    (tokSeqHere toks prev (c :: cs)).isSome || tokSeqSearch toks (some c) cs

/-- The anchor markup inserted around a matched phrase. -/
def anchorWrap (url : String) (m : List Char) : List Char :=
  ("<a href=\"" ++ url ++
    "\" target=\"_blank\" rel=\"nofollow sponsored noopener\">").toList ++
    m ++ "</a>".toList

/-- Global replace of the token regex, wrapping every match. -/
def tokSeqReplaceAux (toks : List String) (wrap : List Char → List Char) :
    Nat → Option Char → List Char → List Char
  | 0, _, s => s
  | _, _, [] => []
  | fuel + 1, prev, c :: cs =>
    match tokSeqHere toks prev (c :: cs) with
    | some (m, rest) => wrap m ++ tokSeqReplaceAux toks wrap fuel m.getLast? rest
    | none => c :: tokSeqReplaceAux toks wrap fuel (some c) cs

/-- Global replace of the word-bounded case-insensitive exact-name regex. -/
def litReplaceAux (pat : List Char) (wrap : List Char → List Char) :
    Nat → Option Char → List Char → List Char
  | 0, _, s => s
  | _, _, [] => []
  | fuel + 1, prev, c :: cs =>
    if litHereCI pat prev (c :: cs) then
      let m := (c :: cs).take pat.length
      wrap m ++ litReplaceAux pat wrap fuel m.getLast? ((c :: cs).drop pat.length)
    else c :: litReplaceAux pat wrap fuel (some c) cs

/-! ## Anchor protection (`protectAnchors`, `restoreAnchors`) -/

/-- Number of characters matched by `<a\b[^>]*>.*?<\/a>` (case-insensitive,
    `.` does not cross a newline) at the head of `s`, if it matches. -/
def anchorCloseScan (k : Nat) : List Char → Option Nat
  | [] => none
  | c :: cs =>
    if startsWithCI "</a>".toList (c :: cs) then some (k + 4)
    else if c = '\n' then none
    else anchorCloseScan (k + 1) cs

def anchorHere (s : List Char) : Option Nat :=
  match s with
  | '<' :: c :: rest =>
    if charEqCI 'a' c &&
        (match rest.head? with | some d => !jsWordChar d | none => false) then
      let attrs := rest.takeWhile fun x => x ≠ '>'
      match rest.drop attrs.length with
      | '>' :: r2 =>
        match anchorCloseScan 0 r2 with
        | some k => some (2 + attrs.length + 1 + k)
        | none => none
      | _ => none
    else none
  | _ => none

/-- Decimal digits of a natural number (JS number-to-string in a template
    literal). -/
def natDigitsAux : Nat → Nat → List Char
  | 0, _ => []
  | fuel + 1, n =>
    if n < 10 then [Char.ofNat (48 + n)]
    else natDigitsAux fuel (n / 10) ++ [Char.ofNat (48 + n % 10)]

def natDigits (n : Nat) : List Char := natDigitsAux (n + 1) n

def protectAux (anchors : List String) (acc : List Char) :
    Nat → List Char → List Char × List String
  | 0, s => (acc ++ s, anchors)
  | _, [] => (acc, anchors)
  | fuel + 1, c :: cs =>
    match anchorHere (c :: cs) with
    | some n =>
      let anchor := String.mk ((c :: cs).take n)
      let ph := "__A".toList ++ natDigits anchors.length ++ "__".toList
      protectAux (anchors ++ [anchor]) (acc ++ ph) fuel ((c :: cs).drop n)
    | none => protectAux anchors (acc ++ [c]) fuel cs

/-- `protectAnchors` from `server.js`: every anchor tag is pulled out into an
    array and replaced by a numbered placeholder `__Ai__`. -/
def protectAnchors (text : String) : String × List String :=
  let r := protectAux [] [] text.toList.length text.toList
  (String.mk r.1, r.2)

def digitsToNat (ds : List Char) : Nat :=
  ds.foldl (fun n c => n * 10 + (c.toNat - 48)) 0

/-- Match of `__A(\d+)__` at the head of `s`: parsed index and match
    length. -/
def placeholderHere (s : List Char) : Option (Nat × Nat) :=
  match s with
  | '_' :: '_' :: 'A' :: rest =>
    let ds := rest.takeWhile Char.isDigit
    if ds.isEmpty then none
    else
      match rest.drop ds.length with
      | '_' :: '_' :: _ => some (digitsToNat ds, 3 + ds.length + 2)
      | _ => none
  | _ => none

def restoreAux (anchors : List String) : Nat → List Char → List Char
  | 0, s => s
  | _, [] => []
  | fuel + 1, c :: cs =>
    match placeholderHere (c :: cs) with
    | some (i, n) =>
      (match anchors.get? i with
       | some a => a.toList
       | none => "undefined".toList) ++
        restoreAux anchors fuel ((c :: cs).drop n)
    | none => c :: restoreAux anchors fuel cs

/-- `restoreAnchors` from `server.js`: `text.replace(/__A(\d+)__/g,
    (_, i) => anchors[+i])` — an out-of-range index yields the string
    `"undefined"`, as the JS callback would. -/
def restoreAnchors (text : String) (anchors : List String) : String :=
  String.mk (restoreAux anchors text.toList.length text.toList)

/-! ## Affiliate link injection (`injectAffiliateLinks`) -/

structure Product where
  name : String
  url : String
deriving Repr, DecidableEq

/-- One iteration of the product loop of `injectAffiliateLinks`: skip items
    with a falsy name or url; protect the anchors accumulated so far; try the
    ordered-token tier and, if it does not hit, the exact-name tier; restore
    the anchors. -/
def injectItem (out : String) (p : Product) : String :=
  if p.url = "" || p.name = "" then out
  else
    let pa := protectAnchors out
    let noA := pa.1
    let tokRes : Option String :=
      match buildOrderedTokenRegex p.name with
      | some toks =>
        if tokSeqSearch toks none noA.toList then
          some (String.mk
            (tokSeqReplaceAux toks (anchorWrap p.url) noA.toList.length none
              noA.toList))
        else none
      | none => none
    let noA2 :=
      match tokRes with
      | some r => r
      | none =>
        if testLitCI p.name noA then
          String.mk
            (litReplaceAux p.name.toList (anchorWrap p.url) noA.toList.length
              none noA.toList)
        else noA
    restoreAnchors noA2 pa.2

/-- `injectAffiliateLinks` from the canonical `server.js` variant. -/
def injectAffiliateLinks (replyText : String) (products : List Product) : String :=
  if replyText = "" || products.isEmpty then replyText
  else products.foldl injectItem (stripMarkdownBasic replyText)

/-- Does the pass for item `p` replace anything in the anchor-free text `s`
    (either tier hits)? -/
def passFires (p : Product) (s : String) : Bool :=
  (match buildOrderedTokenRegex p.name with
   | some toks => tokSeqSearch toks none s.toList
   | none => false) || testLitCI p.name s

/-! ## Query building (`vehicleString`, `buildQueryItems`) -/

/-- `vehicleString`: `[v.year, v.make, v.model].filter(Boolean).join(" ")`. -/
def vehicleString (v : Vehicle) : String :=
  joinSep " " (([v.year, v.make, v.model].filterMap id).filter fun s => s ≠ "")

/-- `buildVehicleAwareQuery`: `[veh, q].filter(Boolean).join(" ").trim()`. -/
def buildVehicleAwareQuery (vehicle : Vehicle) (q : String) : String :=
  trimStr (joinSep " " ([vehicleString vehicle, q].filter fun s => s ≠ ""))

inductive ItemKind where
  | brand
  | prod
  | cat
deriving Repr, DecidableEq

structure QueryItem where
  display : String
  query : String
  kind : ItemKind
deriving Repr, DecidableEq

/-- One of the three push loops of `buildQueryItems`, threading the item list
    and the `seen` key set; the source pushes and then returns when `max` is
    reached, which is the same as skipping every candidate once the list is
    full. -/
def buildItemsLoop (max : Nat) (mk : String → QueryItem) (keyOf : String → String) :
    List String → List QueryItem × List String → List QueryItem × List String
  | [], acc => acc
  | x :: xs, (items, seen) =>
    if max ≤ items.length then (items, seen)
    else
      let k := keyOf x
      if seen.contains k then buildItemsLoop max mk keyOf xs (items, seen)
      else buildItemsLoop max mk keyOf xs (items ++ [mk x], seen ++ [k])

/-- `buildQueryItems` from `server.js`: brands first (paired with the primary
    category when one exists), harvested product phrases next, categories
    last; case-insensitive dedup via prefixed keys, capped at `max`. -/
def buildQueryItems (userMsg modelReply : String) (vehicle : Vehicle) (max : Nat) :
    List QueryItem :=
  let cats := dedupKeepFirst (detectCategories userMsg ++ detectCategories modelReply)
  let primaryCat := match cats.head? with | some c => c | none => ""
  let brands := dedupKeepFirst (detectBrands userMsg ++ detectBrands modelReply)
  let prods := dedupKeepFirst
    (harvestProductPhrases userMsg ++ harvestProductPhrases modelReply)
  let step1 := buildItemsLoop max
    (fun b => ⟨b,
      buildVehicleAwareQuery vehicle
        (if primaryCat ≠ "" then b ++ " " ++ primaryCat else b),
      ItemKind.brand⟩)
    (fun b => "brand:" ++ lowerStr b) brands ([], [])
  let step2 := buildItemsLoop max
    (fun p => ⟨p, buildVehicleAwareQuery vehicle p, ItemKind.prod⟩)
    (fun p => "prod:" ++ lowerStr p) prods step1
  let step3 := buildItemsLoop max
    (fun c => ⟨c, buildVehicleAwareQuery vehicle c, ItemKind.cat⟩)
    (fun c => "cat:" ++ c) cats step2
  step3.1

/-- `primaryCategoryFrom` from `server.js`. -/
def primaryCategoryFrom (items : List QueryItem) (userMsg : String) : Option String :=
  match items.find? (fun it => it.kind == ItemKind.cat) with
  | some i => some (lowerStr i.display)
  | none => (detectCategories userMsg).head?

/-- `targetedFollowUp` from `server.js`. -/
def targetedFollowUp (userMsg : String) (vehicle : Vehicle) (items : List QueryItem) :
    String :=
  match primaryCategoryFrom items userMsg with
  | none =>
    if looksLikeHowTo userMsg then
      if vehicleString vehicle ≠ "" then
        "• Want me to pull parts and torque specs for your setup?"
      else
        "• Want me to pull parts and torque specs that fit your truck?"
    else "• Any budget or brand you prefer?"
  | some cat =>
    if containsSub cat "tuner" || containsSub cat "programmer" then
      "• Which engine (e.g., 2.7L/3.5L EcoBoost, 5.0)? • More power or MPG? • Budget range?"
    else if containsSub cat "tire" then
      "• Road, A/T, or M/T? • What size or wheel offset? • Noise vs grip preference?"
    else if containsSub cat "tonneau" || containsSub cat "bed cover" then
      "• Hard or soft? • Fold vs roll vs retract? • Priority: security, weather seal, or price?"
    else if containsSub cat "lift" || containsSub cat "level" then
      "• How much lift (inches)? • Ride comfort vs off-road? • Need UCAs or shocks too?"
    else if containsSub cat "brake" then
      "• Daily driving or towing? • Looking for low dust or max bite? • Slot/drilled rotors okay?"
    else if containsSub cat "intake" then
      "• Open or sealed box? • Sound level okay? • Planning a tune later?"
    else if containsSub cat "running" || containsSub cat "nerf" || containsSub cat "step" then
      "• Power-deploying or fixed? • Drop step needed? • Coated black or stainless?"
    else "• Any must-have features or a target budget?"

/-! ## Reply formatting (`stripModelHeaders`, `bulletize`) -/

/-- Strip an optional emoji prefix followed by optional whitespace. -/
def afterEmoji (emoji : String) (cs : List Char) : List Char :=
  if listStartsWith emoji.toList cs then
    (cs.drop emoji.toList.length).dropWhile jsWhitespace
  else cs

/-- Does a line match one of the five header patterns of
    `stripModelHeaders` (the trailing `.*` of each pattern swallows the rest
    of the line, so a starts-with test suffices)? -/
def lineIsModelHeader (line : String) : Bool :=
  let cs := line.toList.dropWhile jsWhitespace
  (let c := afterEmoji "🧾" cs
   startsWithCI "tl".toList c &&
     (let r := c.drop 2
      let r2 := match r with | ';' :: t => t | _ => r
      startsWithCI "dr".toList (r2.dropWhile jsWhitespace))) ||
  startsWithCI "step".toList (afterEmoji "🔧" cs) ||
  startsWithCI "safety".toList (afterEmoji "⚠️" cs) ||
  startsWithCI "details".toList (afterEmoji "🧠" cs) ||
  startsWithCI "you might consider:".toList cs

/-- `stripModelHeaders` from `server.js` (line-wise removal, final trim). -/
def stripModelHeaders (s : String) : String :=
  trimStr (joinSep "\n"
    ((splitLines s).map fun l => if lineIsModelHeader l then "" else l))

/-- Split on runs of newlines (`split(/\n+/)`), dropping empty pieces (the
    caller trims and discards empties anyway). -/
def splitNlAux (cur : List Char) (acc : List String) : List Char → List String
  | [] => (if cur.isEmpty then acc else String.mk cur.reverse :: acc).reverse
  | c :: cs =>
    if c = '\n' then
      splitNlAux [] (if cur.isEmpty then acc else String.mk cur.reverse :: acc) cs
    else splitNlAux (c :: cur) acc cs

def splitNl (s : String) : List String :=
  splitNlAux [] [] s.toList

/-- `/[•\-\*]\s+/.test(t)` — a bullet mark followed by whitespace anywhere. -/
def hasBulletMark : List Char → Bool
  | a :: b :: rest =>
    ((a = '•' || a = '-' || a = '*') && jsWhitespace b) || hasBulletMark (b :: rest)
  | _ => false

/-- `/^\d+\.\s+/.test(t)`. -/
def startsNumbered (cs : List Char) : Bool :=
  let ds := cs.takeWhile Char.isDigit
  !ds.isEmpty &&
    (match cs.drop ds.length with
     | '.' :: c :: _ => jsWhitespace c
     | _ => false)

/-- Sentence segmentation `split(/(?<=\.|\?|!)\s+(?=[A-Z0-9])/)`. -/
def sentenceSplitAux : Nat → List Char → List String → List Char → List String
  | _, cur, acc, [] => (String.mk cur.reverse :: acc).reverse
  | 0, cur, acc, s => (String.mk (cur.reverse ++ s) :: acc).reverse
  | fuel + 1, cur, acc, c :: cs =>
    if c = '.' || c = '?' || c = '!' then
      let w := cs.takeWhile jsWhitespace
      if !w.isEmpty &&
          (match (cs.drop w.length).head? with
           | some d => d.isUpper || d.isDigit
           | none => false) then
        sentenceSplitAux fuel [] (String.mk (c :: cur).reverse :: acc) (cs.drop w.length)
      else sentenceSplitAux fuel (c :: cur) acc cs
    else sentenceSplitAux fuel (c :: cur) acc cs

def sentenceSplit (t : String) : List String :=
  sentenceSplitAux t.toList.length [] [] t.toList

/-- Remove a leading `[•\-\*]\s+`. -/
def dropLeadingBullet (cs : List Char) : List Char :=
  match cs with
  | c :: rest =>
    if (c = '•' || c = '-' || c = '*') &&
        (match rest.head? with | some w => jsWhitespace w | none => false) then
      rest.dropWhile jsWhitespace
    else cs
  | [] => []

/-- Remove a leading `\d+\.\s+`. -/
def dropLeadingNumber (cs : List Char) : List Char :=
  let ds := cs.takeWhile Char.isDigit
  if ds.isEmpty then cs
  else
    match cs.drop ds.length with
    | '.' :: rest =>
      if (match rest.head? with | some w => jsWhitespace w | none => false) then
        rest.dropWhile jsWhitespace
      else cs
    | _ => cs

/-- `bulletize` from `server.js`: strip model headers, split paragraphs into
    list-like lines or sentences, normalize away existing bullets/numbering,
    and re-bullet every piece. -/
def bulletize (text : String) : String :=
  let raw := stripModelHeaders text
  let pieces := (splitNl raw).flatMap fun line =>
    let t := trimStr line
    if t = "" then []
    else if hasBulletMark t.toList || startsNumbered t.toList then [t]
    else sentenceSplit t
  let cleaned :=
    (pieces.map fun l =>
      trimStr (String.mk (dropLeadingNumber (dropLeadingBullet l.toList)))).filter
      fun l => l ≠ ""
  joinSep "\n" (cleaned.map fun l => "• " ++ l)

/-! ## The chat turn handler (`app.post("/chat")`, canonical variant) -/

inductive GateOutcome where
  | invalid
  | ask (q : String)
  | proceed
deriving Repr, DecidableEq

/-- Reply for a missing/has-no-string `message` body. -/
def invalidReply : String :=
  "• Tell me what you’d like help with (parts, fitment, or a how-to)."

/-- The fixed ask of the `saidYes` branch. -/
def fitmentAskYes : String :=
  "• Great—what’s your **year, make, model**? (e.g., 2020 Ford F-150 5.5 ft bed)"

/-- The pre-model part of the `/chat` handler: message validation, history
    push, vehicle extraction and merge, and the one-time fitment gate.  The
    gate outcome `ask` short-circuits the turn before the model call. -/
def chatTurnGate (sess : Session) (message : String) : GateOutcome × Session :=
  if message = "" then (GateOutcome.invalid, sess)
  else
    let sess1 := { sess with history := pushHistory sess.history Role.user message }
    let parsed := asVehiclePartial (extractIntent message)
    let vehicle := mergeVehicleMemory sess1.vehicle parsed
    let sess2 := { sess1 with vehicle := vehicle }
    let miss := missingFitment vehicle
    let wantsProducts := isShoppingIntent message
    if !sess2.flags.askedFitmentOnce && saidYes message && decide (0 < miss.length) then
      (GateOutcome.ask fitmentAskYes,
        { sess2 with
          flags := { sess2.flags with askedFitmentOnce := true },
          history := pushHistory sess2.history Role.assistant fitmentAskYes })
    else if !sess2.flags.askedFitmentOnce && wantsProducts && decide (2 ≤ miss.length) then
      let ask := "• To dial this in, what’s your **" ++ joinSep " & " miss ++
        "**?\n• Example: 2020 Ford F-150 5.5 ft bed"
      (GateOutcome.ask ask,
        { sess2 with
          flags := { sess2.flags with askedFitmentOnce := true },
          history := pushHistory sess2.history Role.assistant ask })
    else (GateOutcome.proceed, sess2)

/-- The fixed catch-branch reply of the `/chat` handler. -/
def fallbackReply : String :=
  "• I’m having trouble reaching the AI.\n• Share your truck **year/make/model** and what you need, and I’ll pick it up next."

structure EnvCfg where
  amazonMarketplace : Option String
  affiliateTag : Option String

inductive TurnKind where
  | invalid
  | fitmentAsk
  | answered
  | failed
deriving Repr, DecidableEq

/-- The whole `/chat` turn.  The single `await` of the handler (the model
    call) is the only operation inside the `try` block that can throw; its
    outcome is passed in as an `Except`.  The surrounding `try`/`catch`
    converts a model failure into the fixed `fallbackReply` — the session
    mutations already performed before the throw (user-message push, vehicle
    merge) persist, matching the shared mutable session of the source. -/
def chatTurn (env : EnvCfg) (marketplace : String) (sess : Session)
    (message : String) (modelResult : Except String String) :
    String × TurnKind × Session :=
  match chatTurnGate sess message with
  | (GateOutcome.invalid, s) => (invalidReply, TurnKind.invalid, s)
  | (GateOutcome.ask q, s) => (q, TurnKind.fitmentAsk, s)
  | (GateOutcome.proceed, s) =>
    match modelResult with
    | Except.error _ => (fallbackReply, TurnKind.failed, s)
    | Except.ok content =>
      let reply0 :=
        if content = "" then
          if isGreetingOrSmallTalk message then "• Hi! How can I help today?"
          else "• Tell me what you’re working on and I’ll jump in."
        else content
      let items := buildQueryItems message reply0 s.vehicle 8
      let linkTargets :=
        (items.filter fun it => it.kind == ItemKind.brand || it.kind == ItemKind.prod).map
          fun it => Product.mk it.display
            (buildAmazonSearchURL it.query none (some marketplace)
              env.amazonMarketplace env.affiliateTag)
      let reply1 :=
        if decide (0 < linkTargets.length) then injectAffiliateLinks reply0 linkTargets
        else reply0
      let styled0 := bulletize reply1 ++ "\n\n" ++ targetedFollowUp message s.vehicle items
      let styled1 :=
        if isGreetingOrSmallTalk message then
          "• Hi! How can I help today?\n\n• Parts, fitment, or a quick how-to?"
        else styled0
      let upsell := looksLikeHowTo message && !s.flags.offeredUpsellAfterHowTo
      let styled2 :=
        if upsell then styled1 ++ "\n• Want me to fetch a parts list for this job?"
        else styled1
      let s2 :=
        if upsell then
          { s with flags := { s.flags with offeredUpsellAfterHowTo := true } }
        else s
      (styled2, TurnKind.answered,
        { s2 with history := pushHistory s2.history Role.assistant styled2 })

/-- Number of fitment asks produced over a sequence of turns (each turn is a
    message together with the outcome of its model call). -/
def countFitmentAsks (env : EnvCfg) (marketplace : String) (sess : Session) :
    List (String × Except String String) → Nat
  | [] => 0
  | (msg, mr) :: rest =>
    let r := chatTurn env marketplace sess msg mr
    (if r.2.1 = TurnKind.fitmentAsk then 1 else 0) +
      countFitmentAsks env marketplace r.2.2 rest

/-- Truthiness normalization of a profile field (a falsy value becomes
    `null`, as the trailing `|| null` of the merge). -/
def normalizeT (o : Option String) : Option String :=
  if truthy o then o else none

/-- The last truthy value among an initial field value followed by a sequence
    of incoming field values (`none` when there is none): the value a profile
    field holds after the corresponding sequence of merges. -/
def lastTruthy (init : Option String) : List (Option String) → Option String
  | [] => if truthy init then init else none
  | x :: xs => lastTruthy (if truthy x then x else init) xs

/-! ## Helper lemmas -/

theorem normalizeT_jsOrField (a b : Option String) :
    normalizeT (jsOrField a b) = jsOrField a b := by
  unfold normalizeT jsOrField
  split_ifs <;> simp_all

theorem jsOrField_eq_normalizeT (a b : Option String) :
    jsOrField a b = normalizeT (if truthy a then a else b) := by
  unfold normalizeT jsOrField
  split_ifs <;> simp_all

theorem lastTruthy_normalizeT (a : Option String) (xs : List (Option String)) :
    lastTruthy (normalizeT a) xs = lastTruthy a xs := by
  induction xs generalizing a with
  | nil =>
    unfold lastTruthy normalizeT
    split_ifs <;> simp_all
  | cons x xs ih =>
    unfold lastTruthy
    by_cases hx : truthy x
    · simp [hx]
    · simp only [hx, if_neg, Bool.false_eq_true, if_false]
      exact ih a

theorem foldl_merge_field_aux (f : Vehicle → Option String)
    (hf : ∀ v fi, f (mergeVehicleMemory v fi) = jsOrField (f fi) (f v))
    (ps : List Vehicle) :
    ∀ w : Vehicle, normalizeT (f w) = f w →
      f (ps.foldl mergeVehicleMemory w) = lastTruthy (f w) (ps.map f) := by
  induction ps with
  | nil =>
    intro w hw
    show f w = lastTruthy (f w) []
    rw [show lastTruthy (f w) [] = normalizeT (f w) from rfl, hw]
  | cons p rest ih =>
    intro w hw
    have hw2 : normalizeT (f (mergeVehicleMemory w p)) = f (mergeVehicleMemory w p) := by
      rw [hf]
      exact normalizeT_jsOrField _ _
    calc f (List.foldl mergeVehicleMemory w (p :: rest))
        = f (List.foldl mergeVehicleMemory (mergeVehicleMemory w p) rest) := rfl
      _ = lastTruthy (f (mergeVehicleMemory w p)) (rest.map f) := ih _ hw2
      _ = lastTruthy (jsOrField (f p) (f w)) (rest.map f) := by rw [hf]
      _ = lastTruthy (if truthy (f p) then f p else f w) (rest.map f) := by
          rw [jsOrField_eq_normalizeT, lastTruthy_normalizeT]
      _ = lastTruthy (f w) ((p :: rest).map f) := by
          simp [lastTruthy]

theorem foldl_merge_field (f : Vehicle → Option String)
    (hf : ∀ v fi, f (mergeVehicleMemory v fi) = jsOrField (f fi) (f v))
    (v : Vehicle) (ps : List Vehicle) (hps : ps ≠ []) :
    f (ps.foldl mergeVehicleMemory v) = lastTruthy (f v) (ps.map f) := by
  cases ps with
  | nil => exact absurd rfl hps
  | cons p rest =>
    have hw : normalizeT (f (mergeVehicleMemory v p)) = f (mergeVehicleMemory v p) := by
      rw [hf]
      exact normalizeT_jsOrField _ _
    calc f (List.foldl mergeVehicleMemory v (p :: rest))
        = f (List.foldl mergeVehicleMemory (mergeVehicleMemory v p) rest) := rfl
      _ = lastTruthy (f (mergeVehicleMemory v p)) (rest.map f) :=
          foldl_merge_field_aux f hf rest _ hw
      _ = lastTruthy (jsOrField (f p) (f v)) (rest.map f) := by rw [hf]
      _ = lastTruthy (if truthy (f p) then f p else f v) (rest.map f) := by
          rw [jsOrField_eq_normalizeT, lastTruthy_normalizeT]
      _ = lastTruthy (f v) ((p :: rest).map f) := by
          simp [lastTruthy]

/-! ## Claim theorems -/

/-- C1, counterexample: `mergeVehicleMemory` REPLACES an already non-null
    field with the incoming value from a later partial profile (no
    vehicle-change reset is involved — none exists in the source): merging
    `{year: "2022"}` into a session holding `{year: "2019", …}` yields
    `year = "2022"`, so a non-null field is not first-non-null-wins. -/
theorem C1_merge_monotonicity_cex :
    (mergeVehicleMemory
      ⟨some "2019", some "Toyota", some "Tacoma", none, none, none⟩
      ⟨some "2022", none, none, none, none, none⟩).year = some "2022" ∧
    (mergeVehicleMemory
      ⟨some "2019", some "Toyota", some "Tacoma", none, none, none⟩
      ⟨some "2022", none, none, none, none, none⟩).year ≠ some "2019" := by
  decide

/-- C1, amended: the merge is LAST-truthy-wins, not first-non-null-wins.
    For every session profile and every non-empty sequence of partial
    profiles fed into the merge, each field of the final profile equals the
    last truthy (non-null, non-empty) value among the initial value followed
    by the incoming values in order: an incoming non-null value always
    replaces the stored one, and a stored value persists only while the
    incoming values are null/empty.  (The source has no vehicle-change reset
    at all.) -/
theorem C1_merge_last_truthy_wins (v : Vehicle) (ps : List Vehicle) (hps : ps ≠ []) :
    (ps.foldl mergeVehicleMemory v).year = lastTruthy v.year (ps.map Vehicle.year) ∧
    (ps.foldl mergeVehicleMemory v).make = lastTruthy v.make (ps.map Vehicle.make) ∧
    (ps.foldl mergeVehicleMemory v).model = lastTruthy v.model (ps.map Vehicle.model) ∧
    (ps.foldl mergeVehicleMemory v).bed = lastTruthy v.bed (ps.map Vehicle.bed) ∧
    (ps.foldl mergeVehicleMemory v).trim = lastTruthy v.trim (ps.map Vehicle.trim) ∧
    (ps.foldl mergeVehicleMemory v).engine = lastTruthy v.engine (ps.map Vehicle.engine) :=
  ⟨foldl_merge_field Vehicle.year (fun _ _ => rfl) v ps hps,
   foldl_merge_field Vehicle.make (fun _ _ => rfl) v ps hps,
   foldl_merge_field Vehicle.model (fun _ _ => rfl) v ps hps,
   foldl_merge_field Vehicle.bed (fun _ _ => rfl) v ps hps,
   foldl_merge_field Vehicle.trim (fun _ _ => rfl) v ps hps,
   foldl_merge_field Vehicle.engine (fun _ _ => rfl) v ps hps⟩

/-- C1, witness for the amended theorem at a concrete input. -/
theorem C1_merge_last_truthy_wins_witness :
    ([(⟨some "2022", none, none, none, none, none⟩ : Vehicle)] ≠ ([] : List Vehicle)) ∧
    ([(⟨some "2022", none, none, none, none, none⟩ : Vehicle)].foldl mergeVehicleMemory
        ⟨some "2019", some "Toyota", some "Tacoma", none, none, none⟩).year =
      lastTruthy (some "2019") [some "2022"] :=
  ⟨by decide,
   (C1_merge_last_truthy_wins
      ⟨some "2019", some "Toyota", some "Tacoma", none, none, none⟩
      [⟨some "2022", none, none, none, none, none⟩] (by decide)).1⟩

/-- C5: on the spec's extraction scenario input, `extractIntent` (the only
    extractor in the repository) returns the coarse intent
    `{vehicle: "f150", type: null, brand: null}` — it has no
    `year`/`make`/`model`/`trim`/`bed` fields at all, so the vehicle profile
    the server merges it into stays empty.  This contradicts the documented
    intent (`server.js`: "Remembers vehicle per session (year/make/model…)"
    and the merge reading `fromIntent.year` …), hence a code bug. -/
theorem C5_extract_returns_coarse_intent :
    extractIntent "2020 Ford F150 XLT 5.5 ft bed" =
      { vehicle := some "f150", type := none, brand := none } ∧
    mergeVehicleMemory emptyVehicle
        (asVehiclePartial (extractIntent "2020 Ford F150 XLT 5.5 ft bed")) =
      emptyVehicle := by
  decide

/-- C6: `resolveMarketplace` maps `GB` and `UK` to the same UK TLD
    `"co.uk"`, and every country code outside the `US`/`GB`/`UK`/`CA`
    allow-list falls back to the configured default marketplace
    (`AMAZON_MARKETPLACE` or `"com"`), whatever the environment holds. -/
theorem C6_resolveMarketplace_geo (env : Option String) :
    resolveMarketplace (some "GB") env = resolveMarketplace (some "UK") env ∧
    resolveMarketplace (some "GB") env = "co.uk" ∧
    ∀ cc : String, cc ∉ (["US", "GB", "UK", "CA"] : List String) →
      resolveMarketplace (some cc) env = defaultMarketplace env := by
  refine ⟨rfl, rfl, ?_⟩
  intro cc hcc
  simp only [List.mem_cons, List.not_mem_nil, or_false, not_or] at hcc
  obtain ⟨h1, h2, h3, h4⟩ := hcc
  by_cases hc : cc = ""
  · subst hc
    rfl
  · have e1 : (("US" : String) == cc) = false := beq_eq_false_iff_ne.mpr (Ne.symm h1)
    have e2 : (("GB" : String) == cc) = false := beq_eq_false_iff_ne.mpr (Ne.symm h2)
    have e3 : (("UK" : String) == cc) = false := beq_eq_false_iff_ne.mpr (Ne.symm h3)
    have e4 : (("CA" : String) == cc) = false := beq_eq_false_iff_ne.mpr (Ne.symm h4)
    simp [resolveMarketplace, lookupTld, COUNTRY_TO_TLD_LIMITED, List.find?, hc,
      e1, e2, e3, e4]

/-- C6, witness: `FR` is outside the allow-list and resolves to the
    configured default. -/
theorem C6_resolveMarketplace_geo_witness :
    ("FR" ∉ (["US", "GB", "UK", "CA"] : List String)) ∧
    resolveMarketplace (some "FR") (some "de") = defaultMarketplace (some "de") :=
  ⟨by decide, (C6_resolveMarketplace_geo (some "de")).2.2 "FR" (by decide)⟩

/-- C10: the chat handler keys sessions by the caller-supplied id truncated
    to its first 60 characters (`(session || "visitor").slice(0, 60)`), so
    any two non-empty ids agreeing on their first 60 characters map to the
    same key and hence to the same stored session; an absent id defaults to
    `"visitor"`. -/
theorem C10_session_id_truncation (s1 s2 : String)
    (h : takeStr 60 s1 = takeStr 60 s2) (h1 : s1 ≠ "") (h2 : s2 ≠ "") :
    sessionKey (some s1) = sessionKey (some s2) ∧
    (∀ store, getSession store (sessionKey (some s1)) =
      getSession store (sessionKey (some s2))) ∧
    sessionKey none = "visitor" := by
  have hk : sessionKey (some s1) = sessionKey (some s2) := by
    simp only [sessionKey, h1, h2, if_neg]
    exact h
  exact ⟨hk, fun store => by rw [hk], rfl⟩

theorem mem_dedupKeepFirstAux {p : String} {seen l : List String}
    (h : p ∈ dedupKeepFirstAux seen l) : p ∈ l := by
  induction l generalizing seen with
  | nil => simp [dedupKeepFirstAux] at h
  | cons x xs ih =>
    simp only [dedupKeepFirstAux] at h
    cases hx : seen.contains x with
    | true =>
      rw [hx] at h
      simp only [if_true] at h
      exact List.mem_cons_of_mem _ (ih h)
    | false =>
      rw [hx] at h
      simp only [Bool.false_eq_true, if_false, List.mem_cons] at h
      rcases h with h | h
      · exact h ▸ List.mem_cons_self _ _
      · exact List.mem_cons_of_mem _ (ih h)

/-- C9, counterexample: `harvestProductPhrases` returns the bare brand name
    `"Westin"`, a capitalized phrase containing NO product-indicating token,
    NO alphanumeric-mixed token and NO ampersand — the `BRANDS.includes(raw)`
    disjunct of the filter bypasses all three indicators. -/
theorem C9_brand_bypass_cex :
    harvestProductPhrases "Westin is popular" = ["Westin"] ∧
    isProductishPhrase "Westin" = false ∧
    hasProductToken (lowerStr "Westin") = false ∧
    hasAlphaNumMix "Westin" = false ∧
    containsSub "Westin" "&" = false := by
  decide

/-- C9, amended: every phrase returned by `harvestProductPhrases` either
    passes `isProductishPhrase` (a product token from the curated list or a
    category substring, an alphanumeric-mixed token, or an ampersand, and
    neither stop-listed nor vehicle-like) OR is verbatim one of the
    whitelisted brand names — the brand whitelist bypasses the indicator
    filter. -/
theorem C9_harvest_keeps_productish_or_brand (text p : String)
    (hp : p ∈ harvestProductPhrases text) :
    isProductishPhrase p = true ∨ p ∈ BRANDS := by
  unfold harvestProductPhrases at hp
  by_cases ht : text = ""
  · simp [ht] at hp
  · simp only [ht, if_neg, if_false] at hp
    unfold dedupKeepFirst at hp
    have hp2 := mem_dedupKeepFirstAux hp
    rw [List.mem_filter] at hp2
    have hcond := hp2.2
    simp only [Bool.and_eq_true, Bool.or_eq_true] at hcond
    rcases hcond.2 with h | h
    · exact Or.inl h
    · exact Or.inr (by simpa using h)

/-- C9, witness for the amended theorem at a concrete input. -/
theorem C9_harvest_keeps_productish_or_brand_witness :
    ("Westin" ∈ harvestProductPhrases "Westin is popular") ∧
    (isProductishPhrase "Westin" = true ∨ "Westin" ∈ BRANDS) :=
  ⟨by decide,
   C9_harvest_keeps_productish_or_brand "Westin is popular" "Westin" (by decide)⟩

/-- C4, counterexample: on a fresh (empty-profile) session, the
    informational question `"why do brake rotors warp?"` does NOT make the
    gate proceed — `"rotors"` is in the category vocabulary, so
    `isShoppingIntent` is true, at least two core fields are missing, and
    the gate returns the clarifying fitment ASK. -/
theorem C4_informational_intent_asks_cex :
    (chatTurnGate freshSession "why do brake rotors warp?").1 ≠ GateOutcome.proceed ∧
    (chatTurnGate freshSession "why do brake rotors warp?").1 =
      GateOutcome.ask
        "• To dial this in, what’s your **year & make & model**?\n• Example: 2020 Ford F-150 5.5 ft bed" := by
  decide

/-- C4, amended: the gate keys on product VOCABULARY, not on
    informational/how-to intent — an informational question that mentions
    product terms (such as `"why do brake rotors warp?"`) still triggers the
    fitment ask on an empty profile.  What holds: every message that is
    neither shopping-flavoured (`isShoppingIntent` false) nor an affirmation
    (`saidYes` false) proceeds without any clarifying question, whatever the
    session state. -/
theorem C4_gate_requires_product_vocabulary (sess : Session) (message : String)
    (hmsg : message ≠ "") (hshop : isShoppingIntent message = false)
    (hyes : saidYes message = false) :
    (chatTurnGate sess message).1 = GateOutcome.proceed := by
  unfold chatTurnGate
  simp [hmsg, hshop, hyes]

/-- C4, witness: a purely informational question without product vocabulary
    proceeds. -/
theorem C4_gate_requires_product_vocabulary_witness :
    ("why does my engine overheat" ≠ "") ∧
    isShoppingIntent "why does my engine overheat" = false ∧
    saidYes "why does my engine overheat" = false ∧
    (chatTurnGate freshSession "why does my engine overheat").1 = GateOutcome.proceed :=
  ⟨by decide, by decide, by decide,
   C4_gate_requires_product_vocabulary freshSession _ (by decide) (by decide)
     (by decide)⟩

theorem injectItem_id_of_silent (u : String) (p : Product)
    (hround : restoreAnchors (protectAnchors u).1 (protectAnchors u).2 = u)
    (hfire : p.url ≠ "" → p.name ≠ "" → passFires p (protectAnchors u).1 = false) :
    injectItem u p = u := by
  unfold injectItem
  by_cases hu : p.url = ""
  · simp [hu]
  · by_cases hn : p.name = ""
    · simp [hu, hn]
    · have hf := hfire hu hn
      rw [passFires, Bool.or_eq_false_iff] at hf
      obtain ⟨hf1, hf2⟩ := hf
      simp only [hu, hn, if_neg, or_self, if_false, Bool.or_self]
      cases hb : buildOrderedTokenRegex p.name with
      | some toks =>
        rw [hb] at hf1
        have hf1' : tokSeqSearch toks none (protectAnchors u).1.data = false := by
          simpa [String.toList] using hf1
        simp [hf1', hf2, hround]
      | none =>
        simp [hf2, hround]

theorem foldl_injectItem_id (u : String) (ps : List Product)
    (hround : restoreAnchors (protectAnchors u).1 (protectAnchors u).2 = u)
    (hfire : ∀ p ∈ ps, p.url ≠ "" → p.name ≠ "" →
      passFires p (protectAnchors u).1 = false) :
    ps.foldl injectItem u = u := by
  induction ps with
  | nil => rfl
  | cons p rest ih =>
    rw [List.foldl_cons,
      injectItem_id_of_silent u p hround (hfire p (List.mem_cons_self _ _))]
    exact ih fun q hq => hfire q (List.mem_cons_of_mem _ hq)

theorem inject_noop_of_silent (u : String) (ps : List Product)
    (hstrip : stripMarkdownBasic u = u)
    (hround : restoreAnchors (protectAnchors u).1 (protectAnchors u).2 = u)
    (hfire : ∀ p ∈ ps, p.url ≠ "" → p.name ≠ "" →
      passFires p (protectAnchors u).1 = false) :
    injectAffiliateLinks u ps = u := by
  unfold injectAffiliateLinks
  by_cases h0 : u = ""
  · simp [h0]
  · by_cases hps : ps.isEmpty
    · simp [h0, hps]
    · simp only [h0, hps, Bool.or_self, if_false, Bool.false_eq_true, or_self]
      rw [hstrip]
      exact foldl_injectItem_id u ps hround hfire

set_option maxRecDepth 8000 in
/-- C3, counterexample: injection is NOT idempotent.  With the single item
    `{name: "BakFlip-MX4"}` on the text `"Try BakFlip MX4 and BakFlip-MX4"`,
    the first run matches via the ordered-token tier (`bakflip\s+mx4`) and
    wraps only the space-separated occurrence; on the second run the token
    tier finds nothing outside the protected anchor, so the exact-name
    fallback fires and wraps the hyphenated occurrence, changing the
    output. -/
theorem C3_inject_not_idempotent_cex :
    injectAffiliateLinks
        (injectAffiliateLinks "Try BakFlip MX4 and BakFlip-MX4"
          [⟨"BakFlip-MX4", "u"⟩])
        [⟨"BakFlip-MX4", "u"⟩] ≠
      injectAffiliateLinks "Try BakFlip MX4 and BakFlip-MX4"
        [⟨"BakFlip-MX4", "u"⟩] := by
  decide

/-- C3, amended: re-running injection is a no-op precisely when the second
    pass is silent: whenever the already-injected text is stable under the
    markdown strip, survives the anchor protect/restore round trip (no
    placeholder collision), and triggers neither the token tier nor the
    exact-name tier of any item on its anchor-protected form, then
    `inject(inject(text, items), items) = inject(text, items)`.  The
    counterexample shows the unconditional equation fails when the two tiers
    fire on different runs; each pass still performs its replacements only on
    the placeholder-protected, anchor-free text. -/
theorem C3_inject_idempotent_of_second_pass_silent (t : String) (ps : List Product)
    (hstrip : stripMarkdownBasic (injectAffiliateLinks t ps) =
      injectAffiliateLinks t ps)
    (hround : restoreAnchors (protectAnchors (injectAffiliateLinks t ps)).1
        (protectAnchors (injectAffiliateLinks t ps)).2 = injectAffiliateLinks t ps)
    (hfire : ∀ p ∈ ps, p.url ≠ "" → p.name ≠ "" →
      passFires p (protectAnchors (injectAffiliateLinks t ps)).1 = false) :
    injectAffiliateLinks (injectAffiliateLinks t ps) ps =
      injectAffiliateLinks t ps :=
  inject_noop_of_silent (injectAffiliateLinks t ps) ps hstrip hround hfire

set_option maxRecDepth 8000 in
/-- C3, witness for the amended theorem: a text whose single phrase is
    matched by the token tier in the first pass and triggers nothing on the
    re-run, so the second injection is a no-op. -/
theorem C3_inject_idempotent_of_second_pass_silent_witness :
    (stripMarkdownBasic
        (injectAffiliateLinks "Try the BakFlip MX4 today."
          [⟨"BakFlip MX4", "u"⟩]) =
      injectAffiliateLinks "Try the BakFlip MX4 today." [⟨"BakFlip MX4", "u"⟩]) ∧
    (restoreAnchors
        (protectAnchors
          (injectAffiliateLinks "Try the BakFlip MX4 today."
            [⟨"BakFlip MX4", "u"⟩])).1
        (protectAnchors
          (injectAffiliateLinks "Try the BakFlip MX4 today."
            [⟨"BakFlip MX4", "u"⟩])).2 =
      injectAffiliateLinks "Try the BakFlip MX4 today." [⟨"BakFlip MX4", "u"⟩]) ∧
    injectAffiliateLinks
        (injectAffiliateLinks "Try the BakFlip MX4 today."
          [⟨"BakFlip MX4", "u"⟩])
        [⟨"BakFlip MX4", "u"⟩] =
      injectAffiliateLinks "Try the BakFlip MX4 today." [⟨"BakFlip MX4", "u"⟩] :=
  ⟨by decide, by decide,
   C3_inject_idempotent_of_second_pass_silent "Try the BakFlip MX4 today."
     [⟨"BakFlip MX4", "u"⟩] (by decide) (by decide) (by decide)⟩

set_option maxRecDepth 4000 in
/-- C10, witness: two distinct 61-character ids sharing a 60-character
    prefix produce the same session key. -/
theorem C10_session_id_truncation_witness :
    (takeStr 60 (String.mk (List.replicate 60 'a') ++ "x") =
      takeStr 60 (String.mk (List.replicate 60 'a') ++ "y")) ∧
    (String.mk (List.replicate 60 'a') ++ "x" ≠
      String.mk (List.replicate 60 'a') ++ "y") ∧
    sessionKey (some (String.mk (List.replicate 60 'a') ++ "x")) =
      sessionKey (some (String.mk (List.replicate 60 'a') ++ "y")) :=
  ⟨by decide, by decide,
   (C10_session_id_truncation _ _ (by decide) (by decide) (by decide)).1⟩

/-- C8: whenever the gate proceeds and the upstream model call throws, the
    `/chat` handler catches the exception and returns the fixed, friendly
    fallback reply asking for the vehicle details; the handler is a total
    function (it never re-raises), so no raw exception reaches the caller
    and every input gets a reply. -/
theorem C8_model_failure_fallback (env : EnvCfg) (marketplace : String)
    (sess : Session) (message err : String)
    (hgate : (chatTurnGate sess message).1 = GateOutcome.proceed) :
    (chatTurn env marketplace sess message (Except.error err)).1 = fallbackReply ∧
    (chatTurn env marketplace sess message (Except.error err)).2.1 =
      TurnKind.failed := by
  have h : chatTurnGate sess message =
      (GateOutcome.proceed, (chatTurnGate sess message).2) := by
    rw [← hgate]
  unfold chatTurn
  rw [h]
  exact ⟨rfl, rfl⟩

/-- C8, witness: a fitment-free message together with a failing model call
    produces exactly the fallback reply. -/
theorem C8_model_failure_fallback_witness :
    ((chatTurnGate freshSession "hello there friend").1 = GateOutcome.proceed) ∧
    (chatTurn ⟨none, none⟩ "com" freshSession "hello there friend"
        (Except.error "boom")).1 = fallbackReply :=
  ⟨by decide,
   (C8_model_failure_fallback ⟨none, none⟩ "com" freshSession
      "hello there friend" "boom" (by decide)).1⟩

theorem pushHistory_eq (h : List Msg) (m : Msg) :
    pushHistory h m.role m.content =
      (h ++ [m]).drop ((h ++ [m]).length - MAX_TURNS) := by
  simp only [pushHistory]
  split
  · rfl
  · next hl =>
    have h0 : (h ++ [m]).length - MAX_TURNS = 0 := by
      simp only [List.length_append, List.length_cons, List.length_nil] at hl ⊢
      omega
    rw [h0, List.drop_zero]

theorem foldl_pushHistory (msgs : List Msg) :
    msgs.foldl (fun h m => pushHistory h m.role m.content) [] =
      msgs.drop (msgs.length - MAX_TURNS) := by
  induction msgs using List.reverseRecOn with
  | nil => rfl
  | append_singleton ms m ih =>
    rw [List.foldl_append, List.foldl_cons, List.foldl_nil, ih, pushHistory_eq]
    by_cases hk : ms.length + 1 ≤ MAX_TURNS
    · have e1 : ms.length - MAX_TURNS = 0 := by omega
      rw [e1, List.drop_zero]
    · have e2 : (ms.drop (ms.length - MAX_TURNS) ++ [m]).length - MAX_TURNS = 1 := by
        simp only [List.length_append, List.length_cons, List.length_nil,
          List.length_drop]
        omega
      rw [e2]
      by_cases hM0 : MAX_TURNS = 0
      · have e3 : ms.length - MAX_TURNS = ms.length := by omega
        rw [e3, List.drop_length]
        have e4 : (ms ++ [m]).length - MAX_TURNS = (ms ++ [m]).length := by omega
        rw [e4, List.drop_length]
        rfl
      · have h1le : 1 ≤ (ms.drop (ms.length - MAX_TURNS)).length := by
          rw [List.length_drop]
          omega
        rw [List.drop_append_of_le_length h1le, List.drop_drop]
        have e5 : (ms ++ [m]).length - MAX_TURNS = (ms.length - MAX_TURNS) + 1 := by
          simp only [List.length_append, List.length_cons, List.length_nil]
          omega
        rw [e5, List.drop_append_of_le_length (by omega)]

/-- C7: bounded FIFO history.  For every sequence of appended turns, the
    stored history equals exactly the most recent `MAX_TURNS` turns in their
    original insertion order (`pushHistory` evicts precisely the oldest
    ones), and in particular its length never exceeds the capacity.
    Applying the statement to each prefix of the sequence gives the bound
    after every single append. -/
theorem C7_history_bounded_fifo (msgs : List Msg) :
    msgs.foldl (fun h m => pushHistory h m.role m.content) [] =
      msgs.drop (msgs.length - MAX_TURNS) ∧
    (msgs.foldl (fun h m => pushHistory h m.role m.content) []).length ≤
      MAX_TURNS := by
  refine ⟨foldl_pushHistory msgs, ?_⟩
  rw [foldl_pushHistory msgs, List.length_drop]
  omega

theorem chatTurnGate_flag_master (sess : Session) (msg : String) :
    ((chatTurnGate sess msg).2.flags.askedFitmentOnce = true ∧
      sess.flags.askedFitmentOnce = false ∧
      (∃ q, (chatTurnGate sess msg).1 = GateOutcome.ask q)) ∨
    ((chatTurnGate sess msg).2.flags.askedFitmentOnce =
        sess.flags.askedFitmentOnce ∧
      ∀ q, (chatTurnGate sess msg).1 ≠ GateOutcome.ask q) := by
  simp only [chatTurnGate]
  split_ifs with h0 h1 h2
  · right
    exact ⟨rfl, by simp⟩
  · left
    refine ⟨by simp, ?_, ⟨_, rfl⟩⟩
    simpa using ((Bool.and_eq_true _ _).mp ((Bool.and_eq_true _ _).mp h1).1).1
  · left
    refine ⟨by simp, ?_, ⟨_, rfl⟩⟩
    simpa using ((Bool.and_eq_true _ _).mp ((Bool.and_eq_true _ _).mp h2).1).1
  · right
    exact ⟨by simp, by simp⟩

theorem chatTurn_flag_master (env : EnvCfg) (mp : String) (sess : Session)
    (msg : String) (mr : Except String String) :
    ((chatTurn env mp sess msg mr).2.2.flags.askedFitmentOnce = true ∧
      sess.flags.askedFitmentOnce = false ∧
      (chatTurn env mp sess msg mr).2.1 = TurnKind.fitmentAsk) ∨
    ((chatTurn env mp sess msg mr).2.2.flags.askedFitmentOnce =
        sess.flags.askedFitmentOnce ∧
      (chatTurn env mp sess msg mr).2.1 ≠ TurnKind.fitmentAsk) := by
  have hg := chatTurnGate_flag_master sess msg
  rcases hpair : chatTurnGate sess msg with ⟨g, s⟩
  rw [hpair] at hg
  unfold chatTurn
  rw [hpair]
  cases g with
  | invalid =>
    rcases hg with ⟨_, _, ⟨q, hq⟩⟩ | ⟨hflag, _⟩
    · exact absurd hq (by simp)
    · right
      exact ⟨hflag, by simp⟩
  | ask q =>
    rcases hg with ⟨hflag, hold, _⟩ | ⟨_, hne⟩
    · left
      exact ⟨hflag, hold, rfl⟩
    · exact absurd rfl (hne q)
  | proceed =>
    rcases hg with ⟨_, _, ⟨q, hq⟩⟩ | ⟨hflag, _⟩
    · exact absurd hq (by simp)
    · cases mr with
      | error e =>
        right
        exact ⟨hflag, by simp⟩
      | ok content =>
        right
        refine ⟨?_, by simp⟩
        have hflag2 : s.flags.askedFitmentOnce = sess.flags.askedFitmentOnce :=
          hflag
        by_cases hup : (looksLikeHowTo msg && !s.flags.offeredUpsellAfterHowTo) = true
        · simp [hup, hflag2]
        · simp only [Bool.not_eq_true] at hup
          simp [hup, hflag2]

theorem countFitmentAsks_le (env : EnvCfg) (mp : String)
    (turns : List (String × Except String String)) :
    ∀ sess : Session, countFitmentAsks env mp sess turns ≤
      (if sess.flags.askedFitmentOnce then 0 else 1) := by
  induction turns with
  | nil =>
    intro sess
    simp only [countFitmentAsks]
    split <;> omega
  | cons t rest ih =>
    intro sess
    obtain ⟨msg, mr⟩ := t
    simp only [countFitmentAsks]
    rcases chatTurn_flag_master env mp sess msg mr with ⟨hflag, hold, hkind⟩ |
      ⟨hflag, hkind⟩
    · have hrest := ih (chatTurn env mp sess msg mr).2.2
      rw [hflag] at hrest
      simp only [if_true] at hrest
      rw [hold, hkind]
      simp only [if_true, if_neg, Bool.false_eq_true, if_false]
      omega
    · have hrest := ih (chatTurn env mp sess msg mr).2.2
      rw [hflag] at hrest
      rw [if_neg hkind]
      omega

/-- C2: ask-once.  Starting from a fresh session, over ANY sequence of turns
    (whatever the messages and model outcomes) the fitment gate produces a
    clarifying fitment ASK at most once: `askedFitmentOnce` ratchets
    false→true on the first ask and nothing in the handler resets it (the
    source has no vehicle-change reset at all, so the no-reset proviso of the
    claim is vacuous). -/
theorem C2_fitment_ask_at_most_once (env : EnvCfg) (marketplace : String)
    (turns : List (String × Except String String)) :
    countFitmentAsks env marketplace freshSession turns ≤ 1 := by
  have h := countFitmentAsks_le env marketplace turns freshSession
  simpa [freshSession] using h

end Truckbot
